import Mathlib

/-!
# forge.bimview: the viewer controller of `src/BIMViewer.js`

A shallow embedding of the class `BIMViewer` (constructor/`init`, `loadModel`,
`loadGLTF`, `centerModel`, `toggleWireframe`, `toggleSection`) together with the
small part of the three.js object model that these methods read and write.

Modelling conventions

* Coordinates are exact rationals (`ℚ`), not IEEE doubles.
* An `Object3D` carries a position only; rotation and scale are the identity.
  The scene root is untransformed.
* Every mesh has one material of its own (the glTF loader produces no material
  arrays; sharing of a material between meshes is not modelled).
* A `gltf.scene` produced by the loader is a fresh object; its identity is the
  number of the `loader.load` call that produced it.
* JavaScript strings are lists of characters; `toLowerCase` lower-cases the
  ASCII letters and leaves every other character as it is.
* The progress callback of `loadGLTF` only writes to the console and is
  omitted, as are the render loop and the resize listener.
-/

namespace THREE

/-- Three.js `Vector3`, with rational coordinates. -/
@[ext]
structure Vector3 where
  x : ℚ
  y : ℚ
  z : ℚ
deriving DecidableEq

namespace Vector3

/-- Componentwise sum, `Vector3.add`. -/
def add (a b : Vector3) : Vector3 := ⟨a.x + b.x, a.y + b.y, a.z + b.z⟩

/-- Componentwise difference, `Vector3.sub`. -/
def sub (a b : Vector3) : Vector3 := ⟨a.x - b.x, a.y - b.y, a.z - b.z⟩

/-- Scaling, `Vector3.multiplyScalar`. -/
def multiplyScalar (a : Vector3) (k : ℚ) : Vector3 := ⟨a.x * k, a.y * k, a.z * k⟩

/-- Componentwise minimum, `Vector3.min`. -/
def min (a b : Vector3) : Vector3 := ⟨Min.min a.x b.x, Min.min a.y b.y, Min.min a.z b.z⟩

/-- Componentwise maximum, `Vector3.max`. -/
def max (a b : Vector3) : Vector3 := ⟨Max.max a.x b.x, Max.max a.y b.y, Max.max a.z b.z⟩

/-- The origin `(0, 0, 0)`. -/
def origin : Vector3 := ⟨0, 0, 0⟩

end Vector3

/-- Three.js `Plane`: a unit normal and a signed offset (`constant`). -/
structure Plane where
  normal : Vector3
  constant : ℚ
deriving DecidableEq

/-- The fields of a three.js `Material` that the viewer touches.
`clippingPlanes` is `null` (here `none`) on a material nobody has assigned to;
assigning `true` to `needsUpdate` increments `version`. -/
structure Material where
  wireframe : Bool
  clippingPlanes : Option (List Plane)
  version : Nat
deriving DecidableEq

/-- What makes an object a mesh (`isMesh`): the vertex positions of its
geometry and its material. -/
structure Mesh where
  geometry : List Vector3
  material : Material
deriving DecidableEq

/-- A node of the scene graph: its position, its mesh part when `isMesh` holds,
and its children. -/
inductive Object3D where
  | mk (position : Vector3) (mesh : Option Mesh) (children : List Object3D)

namespace Object3D

/-- The `position` of a node. -/
def position : Object3D → Vector3
  | mk p _ _ => p

/-- Assign the `position` of a node. -/
def setPosition (p : Vector3) : Object3D → Object3D
  | mk _ m cs => mk p m cs

mutual
/-- The method `Object3D.traverse` for a callback that does
`if (child.isMesh) { update child.material }`: the callback runs on the node,
then on every descendant, depth first. -/
def traverse (f : Material → Material) : Object3D → Object3D
  | mk p m cs =>
    mk p (m.map fun me => { me with material := f me.material }) (traverseList f cs)
/-- The loop over `children` inside `traverse`. -/
def traverseList (f : Material → Material) : List Object3D → List Object3D
  | [] => []
  | c :: cs => traverse f c :: traverseList f cs
end

mutual
/-- The mesh materials of a tree, in traversal order. -/
def materials : Object3D → List Material
  | mk _ m cs => (m.map fun me => me.material).toList ++ materialsList cs
/-- The mesh materials of a list of trees. -/
def materialsList : List Object3D → List Material
  | [] => []
  | c :: cs => materials c ++ materialsList cs
end

end Object3D

/-- Three.js `Box3`. The empty box (`min = +∞`, `max = -∞`) is `none`. -/
abbrev Box3 := Option (Vector3 × Vector3)

namespace Box3

/-- The method `Box3.isEmpty`. -/
def isEmpty : Box3 → Bool
  | none => true
  | some (mn, mx) => decide (mx.x < mn.x) || decide (mx.y < mn.y) || decide (mx.z < mn.z)

/-- The method `Box3.expandByPoint`. -/
def expandByPoint (b : Box3) (p : Vector3) : Box3 :=
  match b with
  | none => some (p, p)
  | some (mn, mx) => some (mn.min p, mx.max p)

/-- The method `Box3.union`. -/
def union (a b : Box3) : Box3 :=
  match a, b with
  | none, b => b
  | a, none => a
  | some (mn, mx), some (mn2, mx2) => some (mn.min mn2, mx.max mx2)

/-- The method `Box3.setFromPoints` / `setFromBufferAttribute`, which
`BufferGeometry.computeBoundingBox` runs on the vertex positions. -/
def setFromPoints (points : List Vector3) : Box3 :=
  points.foldl expandByPoint none

/-- The method `Box3.applyMatrix4` for the matrix of a pure translation by
`v`; the empty box stays empty. -/
def translate (b : Box3) (v : Vector3) : Box3 :=
  match b with
  | none => none
  | some (mn, mx) => some (mn.add v, mx.add v)

mutual
/-- The method `Box3.expandByObject`: the world matrix of the node is its parent's
offset plus its own position; the box of its geometry is united into the
accumulator, then the children are visited. -/
def expandByObject (box : Box3) (parentWorld : Vector3) : Object3D → Box3
  | Object3D.mk p m cs =>
    let world := parentWorld.add p
    let box1 :=
      match m with
      | some me => union box (translate (setFromPoints me.geometry) world)
      | none => box
    expandByObjectList box1 world cs
/-- The loop over `children` inside `expandByObject`. -/
def expandByObjectList (box : Box3) (world : Vector3) : List Object3D → Box3
  | [] => box
  | c :: cs => expandByObjectList (expandByObject box world c) world cs
end

/-- The method `Box3.setFromObject` for an object whose parent is the untransformed
scene root. -/
def setFromObject (o : Object3D) : Box3 :=
  expandByObject none Vector3.origin o

/-- The method `Box3.getCenter`. -/
def getCenter (b : Box3) : Vector3 :=
  if isEmpty b then Vector3.origin
  else
    match b with
    | none => Vector3.origin
    | some (mn, mx) => (mn.add mx).multiplyScalar (1 / 2)

/-- The method `Box3.getSize`. -/
def getSize (b : Box3) : Vector3 :=
  if isEmpty b then Vector3.origin
  else
    match b with
    | none => Vector3.origin
    | some (mn, mx) => mx.sub mn

end Box3

end THREE

open THREE

/-- A child of the scene root: one of the four helpers that `init` adds, or the
`gltf.scene` produced by the `loader.load` call number `request`. -/
inductive SceneChild where
  | ambientLight
  | directionalLight
  | grid
  | axes
  | gltfScene (request : Nat)
deriving DecidableEq

/-- The object that `this.model` refers to: which `gltf.scene` it is, and its
current tree. -/
structure Model where
  request : Nat
  root : Object3D

/-- The state of a `BIMViewer` instance and of the three.js objects it owns. -/
structure BIMViewer where
  scene : List SceneChild
  cameraPosition : Vector3
  cameraLookAt : Vector3
  controlsTarget : Vector3
  localClippingEnabled : Bool
  model : Option Model
  wireframeMode : Bool
  sectionMode : Bool
  clippingPlane : Option Plane

/-- A line written to the browser console. -/
inductive ConsoleEntry where
  | log (message : String)
  | warn (message : String)
  | error (message : String) (detail : String)
deriving DecidableEq

/-- The viewer together with the parts of the page it acts on: every
`loader.load` call made so far (the URL of call number `i` is `requests[i]`),
the calls still in flight, the alerts shown and the console. -/
structure Page where
  viewer : BIMViewer
  requests : List String
  pending : List Nat
  alerts : List String
  console : List ConsoleEntry

/-- The method `Object3D.remove` on the scene root: the first occurrence of the
child is spliced out. -/
def sceneRemove (scene : List SceneChild) (child : SceneChild) : List SceneChild :=
  scene.erase child

/-- The method `Object3D.add` on the scene root: the child is removed from its
parent, then pushed. -/
def sceneAdd (scene : List SceneChild) (child : SceneChild) : List SceneChild :=
  sceneRemove scene child ++ [child]

/-- The requests whose `gltf.scene` is attached to the scene, in child order. -/
def attachedModels : List SceneChild → List Nat
  | [] => []
  | SceneChild.gltfScene r :: cs => r :: attachedModels cs
  | _ :: cs => attachedModels cs

/-- JavaScript `String.prototype.split` with a one-character separator. -/
def split (sep : Char) : List Char → List (List Char)
  | [] => [[]]
  | c :: cs =>
    if c = sep then [] :: split sep cs
    else
      match split sep cs with
      | [] => [[c]]
      | seg :: rest => (c :: seg) :: rest

/-- JavaScript `Array.prototype.pop`, as far as its return value goes
(`undefined` is `none`). -/
def pop {α : Type} (xs : List α) : Option α :=
  xs.getLast?

/-- JavaScript `String.prototype.toLowerCase` on ASCII letters. -/
def toLowerCase (s : List Char) : List Char :=
  s.map Char.toLower

/-- The text of the alert shown for an IFC file. -/
def ifcAlert : String :=
  "IFC support requires additional setup due to CORS restrictions. For this demo, please use GLTF/GLB models instead."

namespace BIMViewer

/-- The constructor followed by `init`: lights, grid and axes in the scene, the
camera at `(10, 10, 10)`, no model, both modes off. -/
def init : BIMViewer :=
  { scene := [SceneChild.ambientLight, SceneChild.directionalLight, SceneChild.grid,
      SceneChild.axes]
    cameraPosition := ⟨10, 10, 10⟩
    cameraLookAt := Vector3.origin
    controlsTarget := Vector3.origin
    localClippingEnabled := false
    model := none
    wireframeMode := false
    sectionMode := false
    clippingPlane := none }

/-- The value `Math.max(size.x, size.y, size.z)` of `centerModel`. -/
def maxDim (size : Vector3) : ℚ :=
  max (max size.x size.y) size.z

/-- The method `centerModel`. The closing `controls.update()` is taken with no
user input pending, so that it leaves the camera where it was just put. -/
def centerModel (v : BIMViewer) : BIMViewer :=
  match v.model with
  | none => v
  | some m =>
    let box := Box3.setFromObject m.root
    let center := Box3.getCenter box
    let size := Box3.getSize box
    let root1 := m.root.setPosition (m.root.position.sub center)
    let distance := maxDim size * 2
    { v with
      model := some { m with root := root1 }
      cameraPosition := ⟨distance, distance, distance⟩
      cameraLookAt := ⟨0, 0, 0⟩
      controlsTarget := ⟨0, 0, 0⟩ }

/-- The method `toggleWireframe`. -/
def toggleWireframe (v : BIMViewer) : BIMViewer :=
  match v.model with
  | none => v
  | some m =>
    let mode := !v.wireframeMode
    { v with
      wireframeMode := mode
      model := some { m with
        root := m.root.traverse fun mat => { mat with wireframe := mode } } }

/-- The method `toggleSection`. -/
def toggleSection (v : BIMViewer) : BIMViewer :=
  match v.model with
  | none => v
  | some m =>
    let mode := !v.sectionMode
    if mode then
      let plane : Plane := ⟨⟨1, 0, 0⟩, 0⟩
      { v with
        sectionMode := mode
        clippingPlane := some plane
        localClippingEnabled := true
        model := some { m with
          root := m.root.traverse fun mat =>
            { mat with clippingPlanes := some [plane], version := mat.version + 1 } } }
    else
      { v with
        sectionMode := mode
        localClippingEnabled := false
        model := some { m with
          root := m.root.traverse fun mat =>
            { mat with clippingPlanes := some [], version := mat.version + 1 } } }

/-- The success callback that `loadGLTF` passes to `loader.load`, without its
console line. -/
def onLoad (request : Nat) (gltfScene : Object3D) (v : BIMViewer) : BIMViewer :=
  centerModel
    { v with
      model := some ⟨request, gltfScene⟩
      scene := sceneAdd v.scene (SceneChild.gltfScene request) }

end BIMViewer

namespace Page

/-- The page right after `new BIMViewer(...)`. -/
def fresh : Page :=
  { viewer := BIMViewer.init, requests := [], pending := [], alerts := [], console := [] }

/-- The method `loadGLTF`: one `loader.load(url, ...)` call, left in flight. -/
def loadGLTF (url : String) (p : Page) : Page :=
  { p with requests := p.requests ++ [url], pending := p.pending ++ [p.requests.length] }

/-- The first statement of `loadModel`: clear the previous model. -/
def clearModel (p : Page) : Page :=
  match p.viewer.model with
  | none => p
  | some m =>
    { p with
      viewer := { p.viewer with
        scene := sceneRemove p.viewer.scene (SceneChild.gltfScene m.request)
        model := none } }

/-- The value `url.split('.').pop().toLowerCase()` of `loadModel`; `none` stands
for the `TypeError` that `undefined.toLowerCase()` would raise. -/
def extension (url : String) : Option (List Char) :=
  (pop (split '.' url.toList)).map toLowerCase

/-- The method `loadModel`. -/
def loadModel (url : String) (p : Page) : Page :=
  let p1 := clearModel p
  match extension url with
  | none => p1
  | some ext =>
    if ext = ['g', 'l', 't', 'f'] ∨ ext = ['g', 'l', 'b'] then
      loadGLTF url p1
    else if ext = ['i', 'f', 'c'] then
      { p1 with
        alerts := p1.alerts ++ [ifcAlert]
        console := p1.console ++
          [ConsoleEntry.warn "IFC loading is disabled in this demo due to CORS restrictions"] }
    else
      { p1 with
        console := p1.console ++
          [ConsoleEntry.error "Unsupported file format:" (String.mk ext)] }

end Page

/-- What can happen to the page: a call of one of the three public methods, or
the loader completing one of the calls in flight. -/
inductive Event where
  | loadModel (url : String)
  | loadSuccess (request : Nat) (gltfScene : Object3D)
  | loadFailure (request : Nat) (error : String)
  | toggleWireframe
  | toggleSection

namespace Page

/-- One event. A completion is delivered only for a call that is in flight,
and at most once. -/
def step (p : Page) : Event → Page
  | Event.loadModel url => loadModel url p
  | Event.loadSuccess r g =>
    if r ∈ p.pending then
      { p with
        pending := p.pending.erase r
        viewer := BIMViewer.onLoad r g p.viewer
        console := p.console ++ [ConsoleEntry.log "GLTF model loaded successfully"] }
    else p
  | Event.loadFailure r e =>
    if r ∈ p.pending then
      { p with
        pending := p.pending.erase r
        console := p.console ++ [ConsoleEntry.error "Error loading GLTF model:" e] }
    else p
  | Event.toggleWireframe => { p with viewer := p.viewer.toggleWireframe }
  | Event.toggleSection => { p with viewer := p.viewer.toggleSection }

/-- A sequence of events, in order. -/
def run (p : Page) (events : List Event) : Page :=
  events.foldl step p

end Page

/-- The mesh materials of the attached model (none when no model is
attached). -/
def BIMViewer.modelMaterials (v : BIMViewer) : List Material :=
  match v.model with
  | none => []
  | some m => m.root.materials

/-- Whether an event, arriving in state `p`, is something other than a load
completion whose delivered mesh materials have a wireframe flag different from
the current `wireframeMode`. -/
def Event.deliversInMode (p : Page) : Event → Bool
  | Event.loadSuccess r g =>
    !(decide (r ∈ p.pending)) ||
      g.materials.all fun mat => mat.wireframe == p.viewer.wireframeMode
  | _ => true

/-- Whether every event of a sequence, run from `p`, satisfies
`Event.deliversInMode` in the state in which it arrives. -/
def Page.completesInMode : Page → List Event → Bool
  | _, [] => true
  | p, e :: es => e.deliversInMode p && completesInMode (p.step e) es

/-! ## The words of the specification about URLs -/

/-- The text after the last `.` of a URL, in the words of the specification:
the longest suffix without a `.` (the whole URL when it has none). -/
def textAfterLastDot (url : List Char) : List Char :=
  (url.reverse.takeWhile fun c => c ≠ '.').reverse

/-- Comparison of two texts without regard to the case of ASCII letters. -/
def equalsIgnoringCase (a b : List Char) : Prop :=
  a.map Char.toLower = b.map Char.toLower

instance (a b : List Char) : Decidable (equalsIgnoringCase a b) := by
  unfold equalsIgnoringCase; infer_instance

/-- The condition under which the specification has a URL handed to the asset
loader: its text after the last `.` is `gltf` or `glb`, whatever the case. -/
def isLoadable (url : String) : Prop :=
  equalsIgnoringCase (textAfterLastDot url.toList) ['g', 'l', 't', 'f'] ∨
    equalsIgnoringCase (textAfterLastDot url.toList) ['g', 'l', 'b']

instance (url : String) : Decidable (isLoadable url) := by
  unfold isLoadable; infer_instance

/-! ## Sample data -/

/-- A material as the loader delivers it. -/
def plainMaterial : Material := ⟨false, none, 0⟩

/-- A loaded scene: a group at `(7, 7, 7)` holding one mesh with two vertices. -/
def duck : Object3D :=
  Object3D.mk ⟨7, 7, 7⟩ none
    [Object3D.mk ⟨0, 0, 0⟩ (some ⟨[⟨1, 2, 3⟩, ⟨3, 6, 5⟩], plainMaterial⟩) []]

/-- A loaded scene whose only mesh has a single vertex: its bounding box has
zero size. -/
def speck : Object3D :=
  Object3D.mk ⟨0, 0, 0⟩ (some ⟨[⟨4, 5, 6⟩], plainMaterial⟩) []

/-- A loaded scene without any mesh. -/
def emptyGroup : Object3D :=
  Object3D.mk ⟨0, 0, 0⟩ none []

/-- A viewer holding `duck` as its model. -/
def duckViewer : BIMViewer :=
  { BIMViewer.init with
    scene := BIMViewer.init.scene ++ [SceneChild.gltfScene 0]
    model := some ⟨0, duck⟩ }

/-! ## Lemmas on the scene graph -/

namespace THREE.Object3D

mutual
/-- Traversal applies the callback to each mesh material, in order. -/
theorem materials_traverse (f : Material → Material) :
    ∀ o : Object3D, materials (traverse f o) = (materials o).map f
  | mk _ m cs => by
    cases m <;> simp [traverse, materials, materialsList_traverseList f cs]
/-- Traversal of a list of children applies the callback to each mesh material. -/
theorem materialsList_traverseList (f : Material → Material) :
    ∀ cs : List Object3D, materialsList (traverseList f cs) = (materialsList cs).map f
  | [] => by simp [traverseList, materialsList]
  | c :: cs => by
    simp [traverseList, materialsList, materials_traverse f c,
      materialsList_traverseList f cs]
end

mutual
/-- Two traversals in a row are one traversal with the composed callback. -/
theorem traverse_traverse (f g : Material → Material) :
    ∀ o : Object3D, traverse g (traverse f o) = traverse (fun mat => g (f mat)) o
  | mk _ m cs => by
    cases m <;> simp [traverse, traverseList_traverseList f g cs]
/-- Two traversals of a list of children are one traversal. -/
theorem traverseList_traverseList (f g : Material → Material) :
    ∀ cs : List Object3D,
      traverseList g (traverseList f cs) = traverseList (fun mat => g (f mat)) cs
  | [] => by simp [traverseList]
  | c :: cs => by
    simp [traverseList, traverse_traverse f g c, traverseList_traverseList f g cs]
end

mutual
/-- A traversal whose callback changes none of the tree's materials changes
nothing. -/
theorem traverse_eq_self (f : Material → Material) :
    ∀ o : Object3D, (∀ mat ∈ materials o, f mat = mat) → traverse f o = o
  | mk _ m cs => by
    intro h
    have hcs : traverseList f cs = cs :=
      traverseList_eq_self f cs (fun mat hmat => h mat (by simp [materials, hmat]))
    cases m with
    | none => simp [traverse, hcs]
    | some me =>
      have hme : f me.material = me.material := h me.material (by simp [materials])
      simp [traverse, hcs, hme]
/-- A traversal of children whose callback changes none of their materials
changes nothing. -/
theorem traverseList_eq_self (f : Material → Material) :
    ∀ cs : List Object3D, (∀ mat ∈ materialsList cs, f mat = mat) → traverseList f cs = cs
  | [] => by simp [traverseList]
  | c :: cs => by
    intro h
    have h1 : traverse f c = c :=
      traverse_eq_self f c (fun mat hmat => h mat (by simp [materialsList, hmat]))
    have h2 : traverseList f cs = cs :=
      traverseList_eq_self f cs (fun mat hmat => h mat (by simp [materialsList, hmat]))
    simp [traverseList, h1, h2]
end

end THREE.Object3D

/-! ## The display toggles -/

/-- C9. With no model attached, `toggleWireframe` and `toggleSection` return the
viewer state as it was (both modes, the clipping plane, the renderer's clipping
flag, the scene and the model slot), and the rest of the page is untouched as
well. -/
theorem toggles_without_model (p : Page) (h : p.viewer.model = none) :
    p.viewer.toggleWireframe = p.viewer ∧ p.viewer.toggleSection = p.viewer ∧
    p.step Event.toggleWireframe = p ∧ p.step Event.toggleSection = p := by
  have h1 : p.viewer.toggleWireframe = p.viewer := by
    simp [BIMViewer.toggleWireframe, h]
  have h2 : p.viewer.toggleSection = p.viewer := by
    simp [BIMViewer.toggleSection, h]
  refine ⟨h1, h2, ?_, ?_⟩
  · simp [Page.step, h1]
  · simp [Page.step, h2]

/-- Witness of `toggles_without_model`: the freshly constructed page. -/
theorem toggles_without_model_witness :
    Page.fresh.viewer.model = none ∧
    (Page.fresh.viewer.toggleWireframe = Page.fresh.viewer ∧
      Page.fresh.viewer.toggleSection = Page.fresh.viewer ∧
      Page.fresh.step Event.toggleWireframe = Page.fresh ∧
      Page.fresh.step Event.toggleSection = Page.fresh) :=
  ⟨rfl, toggles_without_model Page.fresh rfl⟩

/-- C4, as stated, fails. Reached state: a model is loaded, wireframe is switched
on, then a second model is loaded; its material has the flag off while
`wireframeMode` is still on. After two more calls of `toggleWireframe` the
material's flag is on: it is not restored. -/
theorem toggleWireframe_twice_not_restoring :
    (Page.fresh.run [Event.loadModel "a.glb", Event.loadSuccess 0 duck,
      Event.toggleWireframe, Event.loadModel "b.glb",
      Event.loadSuccess 1 duck]).viewer.model.isSome = true ∧
    (Page.fresh.run [Event.loadModel "a.glb", Event.loadSuccess 0 duck,
      Event.toggleWireframe, Event.loadModel "b.glb",
      Event.loadSuccess 1 duck]).viewer.modelMaterials.map (fun mat => mat.wireframe) =
      [false] ∧
    ((Page.fresh.run [Event.loadModel "a.glb", Event.loadSuccess 0 duck,
      Event.toggleWireframe, Event.loadModel "b.glb",
      Event.loadSuccess 1 duck]).viewer.toggleWireframe.toggleWireframe).modelMaterials.map
        (fun mat => mat.wireframe) = [true] := by
  refine ⟨by rfl, by rfl, by rfl⟩

/-- C4, amended. With a model attached, two calls of `toggleWireframe` in a row
leave `wireframeMode` at its prior value and the same object in the model slot,
and set the wireframe flag of every mesh material to that prior
`wireframeMode`, changing nothing else in a material. So a flag is restored
exactly where it agreed with `wireframeMode` beforehand, and when all of them
did, the whole viewer state is restored. -/
theorem toggleWireframe_twice (v : BIMViewer) (m : Model) (hm : v.model = some m) :
    v.toggleWireframe.toggleWireframe.wireframeMode = v.wireframeMode ∧
    (∃ m2, v.toggleWireframe.toggleWireframe.model = some m2 ∧
      m2.request = m.request ∧
      m2.root.materials =
        m.root.materials.map (fun mat => { mat with wireframe := v.wireframeMode })) ∧
    ((∀ mat ∈ m.root.materials, mat.wireframe = v.wireframeMode) →
      v.toggleWireframe.toggleWireframe = v) := by
  obtain ⟨sc, cp, cl, ct, lc, mo, wm, sm, pl⟩ := v
  obtain ⟨r, root⟩ := m
  simp only at hm
  subst hm
  refine ⟨?_, ?_, ?_⟩
  · simp [BIMViewer.toggleWireframe]
  · simp [BIMViewer.toggleWireframe, Object3D.traverse_traverse,
      Object3D.materials_traverse]
  · intro hall
    have hroot : Object3D.traverse (fun mat => { mat with wireframe := wm }) root = root :=
      Object3D.traverse_eq_self _ root (fun mat hmat => by
        have := hall mat hmat
        cases mat
        simp_all)
    simp [BIMViewer.toggleWireframe, Object3D.traverse_traverse, hroot]

/-- Witness of `toggleWireframe_twice`: the viewer holding `duck`. -/
theorem toggleWireframe_twice_witness :
    duckViewer.model = some ⟨0, duck⟩ ∧
    (duckViewer.toggleWireframe.toggleWireframe.wireframeMode = duckViewer.wireframeMode ∧
    (∃ m2, duckViewer.toggleWireframe.toggleWireframe.model = some m2 ∧
      m2.request = 0 ∧
      m2.root.materials =
        duck.materials.map (fun mat => { mat with wireframe := duckViewer.wireframeMode })) ∧
    ((∀ mat ∈ duck.materials, mat.wireframe = duckViewer.wireframeMode) →
      duckViewer.toggleWireframe.toggleWireframe = duckViewer)) :=
  ⟨rfl, toggleWireframe_twice duckViewer ⟨0, duck⟩ rfl⟩

/-- C7. With a model attached and `sectionMode` false, one call of
`toggleSection` gives every mesh material the clipping-plane list holding
exactly the plane with normal `(1, 0, 0)` and offset `0`, and enables local
clipping on the renderer; a second call leaves every mesh material with an
empty list, local clipping disabled and `sectionMode` false. The model keeps
all its meshes throughout. -/
theorem toggleSection_enter_exit (v : BIMViewer) (m : Model)
    (hm : v.model = some m) (hs : v.sectionMode = false) :
    (∃ m1, v.toggleSection.model = some m1 ∧
      m1.root.materials.length = m.root.materials.length ∧
      ∀ mat ∈ m1.root.materials, mat.clippingPlanes = some [⟨⟨1, 0, 0⟩, 0⟩]) ∧
    v.toggleSection.localClippingEnabled = true ∧
    v.toggleSection.sectionMode = true ∧
    (∃ m2, v.toggleSection.toggleSection.model = some m2 ∧
      m2.root.materials.length = m.root.materials.length ∧
      ∀ mat ∈ m2.root.materials, mat.clippingPlanes = some []) ∧
    v.toggleSection.toggleSection.localClippingEnabled = false ∧
    v.toggleSection.toggleSection.sectionMode = false := by
  obtain ⟨sc, cp, cl, ct, lc, mo, wm, sm, pl⟩ := v
  obtain ⟨r, root⟩ := m
  simp only at hm hs
  subst hm
  subst hs
  refine ⟨?_, ?_, ?_, ?_, ?_, ?_⟩
  · refine ⟨_, by simp [BIMViewer.toggleSection]; rfl, ?_, ?_⟩
    · simp [Object3D.materials_traverse]
    · intro mat hmat
      simp only [Object3D.materials_traverse, List.mem_map] at hmat
      obtain ⟨mat0, _, rfl⟩ := hmat
      rfl
  · simp [BIMViewer.toggleSection]
  · simp [BIMViewer.toggleSection]
  · refine ⟨_, by simp [BIMViewer.toggleSection]; rfl, ?_, ?_⟩
    · simp [Object3D.materials_traverse]
    · intro mat hmat
      simp only [Object3D.materials_traverse, List.mem_map] at hmat
      obtain ⟨mat0, _, rfl⟩ := hmat
      rfl
  · simp [BIMViewer.toggleSection]
  · simp [BIMViewer.toggleSection]

/-- Witness of `toggleSection_enter_exit`: the viewer holding `duck`. -/
theorem toggleSection_enter_exit_witness :
    duckViewer.model = some ⟨0, duck⟩ ∧ duckViewer.sectionMode = false ∧
    ((∃ m1, duckViewer.toggleSection.model = some m1 ∧
      m1.root.materials.length = duck.materials.length ∧
      ∀ mat ∈ m1.root.materials, mat.clippingPlanes = some [⟨⟨1, 0, 0⟩, 0⟩]) ∧
    duckViewer.toggleSection.localClippingEnabled = true ∧
    duckViewer.toggleSection.sectionMode = true ∧
    (∃ m2, duckViewer.toggleSection.toggleSection.model = some m2 ∧
      m2.root.materials.length = duck.materials.length ∧
      ∀ mat ∈ m2.root.materials, mat.clippingPlanes = some []) ∧
    duckViewer.toggleSection.toggleSection.localClippingEnabled = false ∧
    duckViewer.toggleSection.toggleSection.sectionMode = false) :=
  ⟨rfl, rfl, toggleSection_enter_exit duckViewer ⟨0, duck⟩ rfl rfl⟩

/-! ## URL handling in `loadModel` -/

/-- The method `split` never returns an empty array. -/
theorem split_ne_nil (sep : Char) : ∀ cs : List Char, split sep cs ≠ []
  | [] => by simp [split]
  | c :: cs => by
    have := split_ne_nil sep cs
    unfold split
    split_ifs
    · simp
    · split <;> simp

/-- A text without the separator is returned as a single piece. -/
theorem split_of_not_mem (sep : Char) :
    ∀ cs : List Char, sep ∉ cs → split sep cs = [cs]
  | [] => by simp [split]
  | c :: cs => by
    intro h
    simp only [List.mem_cons, not_or] at h
    have ih := split_of_not_mem sep cs h.2
    have hc : ¬ c = sep := fun e => h.1 e.symm
    simp [split, hc, ih]

/-- Splitting around an occurrence of the separator. -/
theorem split_append_sep (sep : Char) (b : List Char) :
    ∀ a : List Char, split sep (a ++ sep :: b) = split sep a ++ split sep b
  | [] => by simp [split]
  | c :: a => by
    have ih := split_append_sep sep b a
    by_cases hc : c = sep
    · simp [split, hc, ih]
    · have hne := split_ne_nil sep a
      cases hsa : split sep a with
      | nil => exact absurd hsa hne
      | cons seg rest =>
        simp [split, hc, ih, hsa]

/-- The last piece of a split is the longest suffix without the separator. -/
theorem pop_split (sep : Char) (cs : List Char) :
    pop (split sep cs) = some (cs.reverse.takeWhile fun c => c ≠ sep).reverse := by
  have hdecomp := List.takeWhile_append_dropWhile (fun c => decide (c ≠ sep)) cs.reverse
  cases hd : cs.reverse.dropWhile (fun c => decide (c ≠ sep)) with
  | nil =>
    rw [hd, List.append_nil] at hdecomp
    have hnot : sep ∉ cs := by
      intro hmem
      have : sep ∈ cs.reverse.takeWhile (fun c => decide (c ≠ sep)) := by
        rw [hdecomp]; simpa using hmem
      have := List.mem_takeWhile_imp this
      simp at this
    rw [hdecomp, List.reverse_reverse, split_of_not_mem sep cs hnot]
    rfl
  | cons d r =>
    rw [hd] at hdecomp
    have hhead := List.head?_dropWhile_not (fun c => decide (c ≠ sep)) cs.reverse
    rw [hd] at hhead
    have hdsep : d = sep := by simpa using hhead
    subst hdsep
    have hcs : cs = r.reverse ++ d ::
        (cs.reverse.takeWhile fun c => decide (c ≠ d)).reverse := by
      have := congrArg List.reverse hdecomp
      simpa using this.symm
    have hnot : d ∉ (cs.reverse.takeWhile fun c => decide (c ≠ d)).reverse := by
      intro hmem
      have := List.mem_takeWhile_imp (List.mem_reverse.mp hmem)
      simp at this
    generalize (cs.reverse.takeWhile fun c => decide (c ≠ d)).reverse = tail at hcs hnot
    rw [hcs, split_append_sep, split_of_not_mem d tail hnot]
    simp [pop]

/-- The extension computed by `loadModel` is the lower-cased text after the
last `.` of the URL. -/
theorem extension_eq (url : String) :
    Page.extension url = some (toLowerCase (textAfterLastDot url.toList)) := by
  simp [Page.extension, pop_split, textAfterLastDot]

/-- The text after the last `.` of `stem.ext`, when `ext` has no `.`. -/
theorem textAfterLastDot_append (stem ext : List Char) (h : '.' ∉ ext) :
    textAfterLastDot (stem ++ '.' :: ext) = ext := by
  have hall : ∀ c ∈ ext.reverse, (decide (c ≠ '.')) = true := by
    intro c hc
    have hc2 : c ∈ ext := List.mem_reverse.mp hc
    have : c ≠ '.' := fun e => h (e ▸ hc2)
    simpa using this
  unfold textAfterLastDot
  rw [List.reverse_append, List.reverse_cons, List.append_assoc,
    List.takeWhile_append_of_pos hall]
  simp

/-- Clearing the model leaves the loader, the alerts and the console alone. -/
theorem clearModel_frame (p : Page) :
    p.clearModel.requests = p.requests ∧ p.clearModel.pending = p.pending ∧
    p.clearModel.alerts = p.alerts ∧ p.clearModel.console = p.console := by
  unfold Page.clearModel
  cases p.viewer.model <;> simp

/-- What `loadModel` does, by the specification's condition on the URL. -/
theorem loadModel_eq (url : String) (p : Page) :
    p.loadModel url =
      if isLoadable url then Page.loadGLTF url p.clearModel
      else if toLowerCase (textAfterLastDot url.toList) = ['i', 'f', 'c'] then
        { p.clearModel with
          alerts := p.clearModel.alerts ++ [ifcAlert]
          console := p.clearModel.console ++
            [ConsoleEntry.warn "IFC loading is disabled in this demo due to CORS restrictions"] }
      else
        { p.clearModel with
          console := p.clearModel.console ++
            [ConsoleEntry.error "Unsupported file format:"
              (String.mk (toLowerCase (textAfterLastDot url.toList)))] } := by
  have hg : (['g', 'l', 't', 'f'] : List Char).map Char.toLower = ['g', 'l', 't', 'f'] := by
    decide
  have hb : (['g', 'l', 'b'] : List Char).map Char.toLower = ['g', 'l', 'b'] := by decide
  simp only [Page.loadModel, extension_eq, isLoadable, equalsIgnoringCase, hg, hb,
    toLowerCase]

/-- C10. For every URL and every page state, `loadModel` makes exactly one
`loader.load` call, with that URL, when the text after the URL's last `.` is
`gltf` or `glb` compared without regard to case, and makes none otherwise. So
`a.GLTF`, `a.Glb` and `a.gltf` are all handed to the loader, and two URLs with
the same text after the last `.` are dispatched alike, whatever the states. -/
theorem loadModel_dispatch (url : String) (p : Page) :
    (p.loadModel url).requests = (if isLoadable url then p.requests ++ [url] else p.requests) ∧
    (p.loadModel url).pending =
      (if isLoadable url then p.pending ++ [p.requests.length] else p.pending) ∧
    (Page.fresh.loadModel "a.GLTF").requests = ["a.GLTF"] ∧
    (Page.fresh.loadModel "a.Glb").requests = ["a.Glb"] ∧
    (Page.fresh.loadModel "a.gltf").requests = ["a.gltf"] ∧
    ∀ (url2 : String) (q : Page),
      textAfterLastDot url.toList = textAfterLastDot url2.toList →
      ((p.loadModel url).requests = p.requests ++ [url] ↔
        (q.loadModel url2).requests = q.requests ++ [url2]) := by
  have key : ∀ (u : String) (q : Page),
      (q.loadModel u).requests = (if isLoadable u then q.requests ++ [u] else q.requests) ∧
      (q.loadModel u).pending =
        (if isLoadable u then q.pending ++ [q.requests.length] else q.pending) := by
    intro u q
    obtain ⟨h1, h2, _, _⟩ := clearModel_frame q
    rw [loadModel_eq]
    split_ifs with hl hi
    · exact ⟨by simp [Page.loadGLTF, h1], by simp [Page.loadGLTF, h1, h2]⟩
    · exact ⟨h1, h2⟩
    · exact ⟨h1, h2⟩
  refine ⟨(key url p).1, (key url p).2, by decide, by decide, by decide, ?_⟩
  intro url2 q hsame
  have hiff : isLoadable url ↔ isLoadable url2 := by
    unfold isLoadable
    rw [hsame]
  rw [(key url p).1, (key url2 q).1]
  by_cases hl : isLoadable url
  · have hl2 := hiff.mp hl
    simp [hl, hl2]
  · have hl2 : ¬ isLoadable url2 := fun h => hl (hiff.mpr h)
    simp [hl, hl2]

/-- C8. For every URL that ends in `.ifc`, in any letter case, `loadModel` makes
no `loader.load` call (no request is added, none is put in flight) and shows
exactly one alert. -/
theorem loadModel_ifc (url : String) (p : Page) (stem ext : List Char)
    (hurl : url.toList = stem ++ '.' :: ext) (hext : toLowerCase ext = ['i', 'f', 'c']) :
    (p.loadModel url).requests = p.requests ∧
    (p.loadModel url).pending = p.pending ∧
    (p.loadModel url).alerts = p.alerts ++ [ifcAlert] := by
  have hdot : '.' ∉ ext := by
    intro hmem
    have : Char.toLower '.' ∈ toLowerCase ext := List.mem_map_of_mem _ hmem
    rw [hext] at this
    revert this
    decide
  have htxt : textAfterLastDot url.toList = ext := by
    rw [hurl]
    exact textAfterLastDot_append stem ext hdot
  have hnl : ¬ isLoadable url := by
    unfold isLoadable equalsIgnoringCase
    rw [htxt]
    unfold toLowerCase at hext
    rw [hext]
    decide
  obtain ⟨h1, h2, h3, _⟩ := clearModel_frame p
  rw [loadModel_eq, if_neg hnl, htxt, if_pos hext]
  exact ⟨h1, h2, by simp [h3]⟩

/-- Witness of `loadModel_ifc`: the URL `House.IFC` on the fresh page. -/
theorem loadModel_ifc_witness :
    "House.IFC".toList = ['H', 'o', 'u', 's', 'e'] ++ '.' :: ['I', 'F', 'C'] ∧
    toLowerCase ['I', 'F', 'C'] = ['i', 'f', 'c'] ∧
    ((Page.fresh.loadModel "House.IFC").requests = Page.fresh.requests ∧
    (Page.fresh.loadModel "House.IFC").pending = Page.fresh.pending ∧
    (Page.fresh.loadModel "House.IFC").alerts = Page.fresh.alerts ++ [ifcAlert]) :=
  ⟨by decide, by decide,
    loadModel_ifc "House.IFC" Page.fresh ['H', 'o', 'u', 's', 'e'] ['I', 'F', 'C']
      (by decide) (by decide)⟩

/-- C3, as stated, fails. With `duck` loaded and attached, `loadModel` on
`model.obj` empties the model slot and takes the model out of the scene. -/
theorem loadModel_unsupported_clears_model :
    attachedModels (Page.fresh.run [Event.loadModel "duck.gltf",
      Event.loadSuccess 0 duck]).viewer.scene = [0] ∧
    (Page.fresh.run [Event.loadModel "duck.gltf",
      Event.loadSuccess 0 duck]).viewer.model.isSome = true ∧
    attachedModels ((Page.fresh.run [Event.loadModel "duck.gltf",
      Event.loadSuccess 0 duck]).loadModel "model.obj").viewer.scene = [] ∧
    ((Page.fresh.run [Event.loadModel "duck.gltf",
      Event.loadSuccess 0 duck]).loadModel "model.obj").viewer.model.isSome = false ∧
    ((Page.fresh.run [Event.loadModel "duck.gltf",
      Event.loadSuccess 0 duck]).loadModel "model.obj").viewer.scene ≠
      (Page.fresh.run [Event.loadModel "duck.gltf", Event.loadSuccess 0 duck]).viewer.scene := by
  refine ⟨by rfl, by rfl, by rfl, by rfl, by decide⟩

/-- C3, amended. For every URL whose extension (the lower-cased text after the
last `.`) is none of `gltf`, `glb`, `ifc`, `loadModel` writes one error to the
console naming that extension, makes no `loader.load` call and shows no alert;
it leaves the model slot empty, having removed the model that was attached (if
any) from the scene, and changes nothing else in the viewer. With no model
attached beforehand the viewer is unchanged. -/
theorem loadModel_unsupported (url : String) (p : Page)
    (hgltf : toLowerCase (textAfterLastDot url.toList) ≠ ['g', 'l', 't', 'f'])
    (hglb : toLowerCase (textAfterLastDot url.toList) ≠ ['g', 'l', 'b'])
    (hifc : toLowerCase (textAfterLastDot url.toList) ≠ ['i', 'f', 'c']) :
    (p.loadModel url).console = p.console ++
      [ConsoleEntry.error "Unsupported file format:"
        (String.mk (toLowerCase (textAfterLastDot url.toList)))] ∧
    (p.loadModel url).requests = p.requests ∧
    (p.loadModel url).pending = p.pending ∧
    (p.loadModel url).alerts = p.alerts ∧
    (p.loadModel url).viewer.model = none ∧
    (∀ m, p.viewer.model = some m →
      (p.loadModel url).viewer =
        { p.viewer with
          scene := sceneRemove p.viewer.scene (SceneChild.gltfScene m.request)
          model := none }) ∧
    (p.viewer.model = none → (p.loadModel url).viewer = p.viewer) := by
  have hg : (['g', 'l', 't', 'f'] : List Char).map Char.toLower = ['g', 'l', 't', 'f'] := by
    decide
  have hb : (['g', 'l', 'b'] : List Char).map Char.toLower = ['g', 'l', 'b'] := by decide
  have hnl : ¬ isLoadable url := by
    unfold isLoadable equalsIgnoringCase
    rw [hg, hb]
    unfold toLowerCase at hgltf hglb
    tauto
  obtain ⟨h1, h2, h3, h4⟩ := clearModel_frame p
  rw [loadModel_eq, if_neg hnl, if_neg hifc]
  refine ⟨by simp [h4], h1, h2, h3, ?_, ?_, ?_⟩
  · cases hm : p.viewer.model <;> simp [Page.clearModel, hm]
  · intro m hm
    simp [Page.clearModel, hm]
  · intro hm
    simp [Page.clearModel, hm]

/-- Witness of `loadModel_unsupported`: the URL `model.obj` on the fresh page. -/
theorem loadModel_unsupported_witness :
    toLowerCase (textAfterLastDot "model.obj".toList) ≠ ['g', 'l', 't', 'f'] ∧
    toLowerCase (textAfterLastDot "model.obj".toList) ≠ ['g', 'l', 'b'] ∧
    toLowerCase (textAfterLastDot "model.obj".toList) ≠ ['i', 'f', 'c'] ∧
    ((Page.fresh.loadModel "model.obj").console = Page.fresh.console ++
      [ConsoleEntry.error "Unsupported file format:"
        (String.mk (toLowerCase (textAfterLastDot "model.obj".toList)))] ∧
    (Page.fresh.loadModel "model.obj").requests = Page.fresh.requests ∧
    (Page.fresh.loadModel "model.obj").pending = Page.fresh.pending ∧
    (Page.fresh.loadModel "model.obj").alerts = Page.fresh.alerts ∧
    (Page.fresh.loadModel "model.obj").viewer.model = none ∧
    (∀ m, Page.fresh.viewer.model = some m →
      (Page.fresh.loadModel "model.obj").viewer =
        { Page.fresh.viewer with
          scene := sceneRemove Page.fresh.viewer.scene (SceneChild.gltfScene m.request)
          model := none }) ∧
    (Page.fresh.viewer.model = none →
      (Page.fresh.loadModel "model.obj").viewer = Page.fresh.viewer)) :=
  ⟨by decide, by decide, by decide,
    loadModel_unsupported "model.obj" Page.fresh (by decide) (by decide) (by decide)⟩

/-! ## Bounding boxes and `centerModel` -/

namespace THREE.Box3

/-- Moving a box moves the point it was expanded by. -/
theorem expandByPoint_translate (b : Box3) (p v : Vector3) :
    expandByPoint (translate b v) (p.add v) = translate (expandByPoint b p) v := by
  cases b with
  | none => rfl
  | some mm =>
    obtain ⟨mn, mx⟩ := mm
    simp [expandByPoint, translate, Vector3.min, Vector3.max, Vector3.add,
      min_add_add_right, max_add_add_right]

/-- Moving two boxes moves their union. -/
theorem union_translate (a b : Box3) (v : Vector3) :
    union (translate a v) (translate b v) = translate (union a b) v := by
  cases a with
  | none => cases b <;> rfl
  | some mm =>
    obtain ⟨mn, mx⟩ := mm
    cases b with
    | none => rfl
    | some mm2 =>
      obtain ⟨mn2, mx2⟩ := mm2
      simp [union, translate, Vector3.min, Vector3.max, Vector3.add,
        min_add_add_right, max_add_add_right]

/-- Moving a box twice. -/
theorem translate_translate (b : Box3) (w v : Vector3) :
    translate (translate b w) v = translate b (w.add v) := by
  cases b with
  | none => rfl
  | some mm =>
    obtain ⟨mn, mx⟩ := mm
    simp [translate, Vector3.add, add_assoc]

mutual
/-- Moving the accumulator and the parent by `v` moves the box computed by
`expandByObject` by `v`. -/
theorem expandByObject_translate (v : Vector3) :
    ∀ (o : Object3D) (box : Box3) (w : Vector3),
      expandByObject (translate box v) (w.add v) o = translate (expandByObject box w o) v
  | Object3D.mk p m cs => by
    intro box w
    have hw : (w.add v).add p = (w.add p).add v := by
      ext <;> simp [Vector3.add] <;> ring
    cases m with
    | none =>
      simp only [expandByObject, hw]
      exact expandByObjectList_translate v cs box (w.add p)
    | some me =>
      simp only [expandByObject, hw]
      rw [← translate_translate, union_translate]
      exact expandByObjectList_translate v cs _ (w.add p)
/-- The same for the loop over the children. -/
theorem expandByObjectList_translate (v : Vector3) :
    ∀ (cs : List Object3D) (box : Box3) (w : Vector3),
      expandByObjectList (translate box v) (w.add v) cs =
        translate (expandByObjectList box w cs) v
  | [] => by
    intro box w
    simp [expandByObjectList]
  | c :: cs => by
    intro box w
    simp only [expandByObjectList]
    rw [expandByObject_translate v c box w]
    exact expandByObjectList_translate v cs _ w
end

/-- Subtracting `c` from the position of an object moves its bounding box by
`-c`. -/
theorem setFromObject_setPosition_sub (o : Object3D) (c : Vector3) :
    setFromObject (o.setPosition (o.position.sub c)) =
      translate (setFromObject o) (Vector3.origin.sub c) := by
  obtain ⟨p, m, cs⟩ := o
  have hw : Vector3.origin.add (p.sub c) = (Vector3.origin.add p).add (Vector3.origin.sub c) := by
    ext <;> simp [Vector3.add, Vector3.sub, Vector3.origin] <;> ring
  have hnone : (none : Box3) = translate none (Vector3.origin.sub c) := rfl
  cases m with
  | none =>
    simp only [setFromObject, Object3D.setPosition, Object3D.position, expandByObject, hw]
    conv_lhs => rw [hnone]
    exact expandByObjectList_translate _ cs none _
  | some me =>
    simp only [setFromObject, Object3D.setPosition, Object3D.position, expandByObject, hw]
    rw [← translate_translate]
    conv_lhs => rw [hnone, union_translate]
    exact expandByObjectList_translate _ cs _ _

/-- Moving a box does not change whether it is empty. -/
theorem isEmpty_translate (b : Box3) (v : Vector3) :
    isEmpty (translate b v) = isEmpty b := by
  cases b with
  | none => rfl
  | some mm =>
    obtain ⟨mn, mx⟩ := mm
    simp [isEmpty, translate, Vector3.add]

/-- Moving a box that is not empty moves its center. -/
theorem getCenter_translate (b : Box3) (v : Vector3) (h : isEmpty b = false) :
    getCenter (translate b v) = (getCenter b).add v := by
  have h2 : isEmpty (translate b v) = false := by rw [isEmpty_translate, h]
  cases b with
  | none => simp [isEmpty] at h
  | some mm =>
    obtain ⟨mn, mx⟩ := mm
    simp only [getCenter, h, h2]
    simp only [translate]
    ext <;> simp [Vector3.add, Vector3.multiplyScalar] <;> ring

/-- The extents returned by `getSize` are never negative. -/
theorem getSize_nonneg (b : Box3) :
    0 ≤ (getSize b).x ∧ 0 ≤ (getSize b).y ∧ 0 ≤ (getSize b).z := by
  cases b with
  | none => simp [getSize, isEmpty, Vector3.origin]
  | some mm =>
    obtain ⟨mn, mx⟩ := mm
    by_cases he : isEmpty (some (mn, mx)) = true
    · simp [getSize, he, Vector3.origin]
    · have he2 := he
      simp only [isEmpty, Bool.or_eq_true, decide_eq_true_eq, not_or, not_lt] at he2
      simp only [getSize, he]
      simp [Vector3.sub, he2.1.1, he2.1.2, he2.2]

end THREE.Box3

/-- C5. For every viewer with a model attached whose bounding box is not empty
(any corners, a box of zero size included, and any prior position of the
model), after `centerModel` the same object is in the model slot and the
center of its bounding box is the origin. -/
theorem centerModel_centers (v : BIMViewer) (m : Model) (hm : v.model = some m)
    (hbox : Box3.isEmpty (Box3.setFromObject m.root) = false) :
    ∃ m1, v.centerModel.model = some m1 ∧ m1.request = m.request ∧
      Box3.isEmpty (Box3.setFromObject m1.root) = false ∧
      Box3.getCenter (Box3.setFromObject m1.root) = Vector3.origin := by
  refine ⟨⟨m.request, m.root.setPosition
    (m.root.position.sub (Box3.getCenter (Box3.setFromObject m.root)))⟩, ?_, rfl, ?_, ?_⟩
  · simp [BIMViewer.centerModel, hm]
  · simp only [Box3.setFromObject_setPosition_sub, Box3.isEmpty_translate, hbox]
  · simp only [Box3.setFromObject_setPosition_sub]
    rw [Box3.getCenter_translate _ _ hbox]
    ext <;> simp [Vector3.add, Vector3.sub, Vector3.origin]

/-- Witness of `centerModel_centers`: the viewer holding `duck`, whose box runs
from `(8, 9, 10)` to `(10, 13, 12)`. -/
theorem centerModel_centers_witness :
    duckViewer.model = some ⟨0, duck⟩ ∧
    Box3.isEmpty (Box3.setFromObject duck) = false ∧
    ∃ m1, duckViewer.centerModel.model = some m1 ∧ m1.request = 0 ∧
      Box3.isEmpty (Box3.setFromObject m1.root) = false ∧
      Box3.getCenter (Box3.setFromObject m1.root) = Vector3.origin :=
  ⟨rfl,
    by simp [Box3.isEmpty, Box3.setFromObject, duck, Box3.expandByObject,
      Box3.expandByObjectList, Box3.setFromPoints, Box3.expandByPoint, Box3.union,
      Box3.translate, Vector3.add, Vector3.min, Vector3.max, Vector3.origin],
    centerModel_centers duckViewer ⟨0, duck⟩ rfl
      (by simp [Box3.isEmpty, Box3.setFromObject, duck, Box3.expandByObject,
        Box3.expandByObjectList, Box3.setFromPoints, Box3.expandByPoint, Box3.union,
        Box3.translate, Vector3.add, Vector3.min, Vector3.max, Vector3.origin])⟩

/-- C6, as stated, fails. Loading `speck`, whose bounding box has zero size,
leaves the camera at the origin, which is also the orbit target. -/
theorem centerModel_camera_at_origin :
    (Page.fresh.run [Event.loadModel "speck.glb",
      Event.loadSuccess 0 speck]).viewer.cameraPosition = Vector3.origin ∧
    (Page.fresh.run [Event.loadModel "speck.glb",
      Event.loadSuccess 0 speck]).viewer.controlsTarget = Vector3.origin ∧
    (Page.fresh.run [Event.loadModel "speck.glb",
      Event.loadSuccess 0 speck]).viewer.cameraLookAt = Vector3.origin := by
  have h : (Page.fresh.run [Event.loadModel "speck.glb", Event.loadSuccess 0 speck]).viewer =
      BIMViewer.onLoad 0 speck BIMViewer.init := by rfl
  rw [h]
  simp [BIMViewer.init, BIMViewer.onLoad, BIMViewer.centerModel, BIMViewer.maxDim, speck,
    Box3.getSize, Box3.isEmpty, Box3.setFromObject, Box3.expandByObject,
    Box3.expandByObjectList, Box3.setFromPoints, Box3.expandByPoint, Box3.union,
    Box3.translate, Vector3.add, Vector3.sub, Vector3.min, Vector3.max, Vector3.origin]

/-- C6, amended. For every viewer with a model attached, `centerModel` puts the
camera at `(2·maxDim, 2·maxDim, 2·maxDim)`, where `maxDim ≥ 0` is the largest
extent of the model's bounding box, and the look-at point and the orbit target
at the origin. So the camera is away from the target exactly when the box has
a positive extent. -/
theorem centerModel_camera (v : BIMViewer) (m : Model) (hm : v.model = some m) :
    v.centerModel.cameraPosition =
      ⟨BIMViewer.maxDim (Box3.getSize (Box3.setFromObject m.root)) * 2,
        BIMViewer.maxDim (Box3.getSize (Box3.setFromObject m.root)) * 2,
        BIMViewer.maxDim (Box3.getSize (Box3.setFromObject m.root)) * 2⟩ ∧
    v.centerModel.cameraLookAt = Vector3.origin ∧
    v.centerModel.controlsTarget = Vector3.origin ∧
    0 ≤ BIMViewer.maxDim (Box3.getSize (Box3.setFromObject m.root)) ∧
    (v.centerModel.cameraPosition ≠ v.centerModel.controlsTarget ↔
      0 < BIMViewer.maxDim (Box3.getSize (Box3.setFromObject m.root))) := by
  have hnn : 0 ≤ BIMViewer.maxDim (Box3.getSize (Box3.setFromObject m.root)) := by
    obtain ⟨hx, _, _⟩ := Box3.getSize_nonneg (Box3.setFromObject m.root)
    unfold BIMViewer.maxDim
    exact le_trans hx (le_trans (le_max_left _ _) (le_max_left _ _))
  have hcam : v.centerModel.cameraPosition =
      ⟨BIMViewer.maxDim (Box3.getSize (Box3.setFromObject m.root)) * 2,
        BIMViewer.maxDim (Box3.getSize (Box3.setFromObject m.root)) * 2,
        BIMViewer.maxDim (Box3.getSize (Box3.setFromObject m.root)) * 2⟩ := by
    simp [BIMViewer.centerModel, hm]
  have htgt : v.centerModel.controlsTarget = Vector3.origin := by
    simp [BIMViewer.centerModel, hm, Vector3.origin]
  have hlook : v.centerModel.cameraLookAt = Vector3.origin := by
    simp [BIMViewer.centerModel, hm, Vector3.origin]
  refine ⟨hcam, hlook, htgt, hnn, ?_⟩
  rw [hcam, htgt]
  generalize BIMViewer.maxDim (Box3.getSize (Box3.setFromObject m.root)) = d at hnn
  constructor
  · intro hne
    rcases hnn.lt_or_eq with hlt | heq
    · exact hlt
    · exfalso
      apply hne
      rw [← heq]
      simp [Vector3.origin]
  · intro hpos hEq
    have hx := congrArg Vector3.x hEq
    simp only [Vector3.origin] at hx
    linarith

/-- Witness of `centerModel_camera`: the viewer holding `duck`. -/
theorem centerModel_camera_witness :
    duckViewer.model = some ⟨0, duck⟩ ∧
    (duckViewer.centerModel.cameraPosition =
      ⟨BIMViewer.maxDim (Box3.getSize (Box3.setFromObject duck)) * 2,
        BIMViewer.maxDim (Box3.getSize (Box3.setFromObject duck)) * 2,
        BIMViewer.maxDim (Box3.getSize (Box3.setFromObject duck)) * 2⟩ ∧
    duckViewer.centerModel.cameraLookAt = Vector3.origin ∧
    duckViewer.centerModel.controlsTarget = Vector3.origin ∧
    0 ≤ BIMViewer.maxDim (Box3.getSize (Box3.setFromObject duck)) ∧
    (duckViewer.centerModel.cameraPosition ≠ duckViewer.centerModel.controlsTarget ↔
      0 < BIMViewer.maxDim (Box3.getSize (Box3.setFromObject duck)))) :=
  ⟨rfl, centerModel_camera duckViewer ⟨0, duck⟩ rfl⟩

/-! ## Sequences of events -/

/-- C1, evaluated on the code. Two loads are started before either completes;
when both complete, both scenes are children of the scene root while the model
slot holds only the one that completed last, in either order of completion.
A further `loadModel` then removes only the model in the slot. -/
theorem overlapping_loads_attach_two_models :
    attachedModels (Page.fresh.run [Event.loadModel "a.gltf", Event.loadModel "b.gltf",
      Event.loadSuccess 0 duck, Event.loadSuccess 1 speck]).viewer.scene = [0, 1] ∧
    (Page.fresh.run [Event.loadModel "a.gltf", Event.loadModel "b.gltf",
      Event.loadSuccess 0 duck, Event.loadSuccess 1 speck]).viewer.model.map Model.request =
      some 1 ∧
    attachedModels (Page.fresh.run [Event.loadModel "a.gltf", Event.loadModel "b.gltf",
      Event.loadSuccess 1 speck, Event.loadSuccess 0 duck]).viewer.scene = [1, 0] ∧
    (Page.fresh.run [Event.loadModel "a.gltf", Event.loadModel "b.gltf",
      Event.loadSuccess 1 speck, Event.loadSuccess 0 duck]).viewer.model.map Model.request =
      some 0 ∧
    attachedModels (Page.fresh.run [Event.loadModel "a.gltf", Event.loadModel "b.gltf",
      Event.loadSuccess 0 duck, Event.loadSuccess 1 speck,
      Event.loadModel "c.obj"]).viewer.scene = [0] ∧
    (Page.fresh.run [Event.loadModel "a.gltf", Event.loadModel "b.gltf",
      Event.loadSuccess 0 duck, Event.loadSuccess 1 speck,
      Event.loadModel "c.obj"]).viewer.model.map Model.request = none := by
  refine ⟨by rfl, by rfl, by rfl, by rfl, by rfl, by rfl⟩

/-- C2, as stated, fails, in two ways. A model that finishes loading while
`wireframeMode` is on keeps the flag the loader gave it (off); and a model
without any mesh has all of its (no) flags on while `wireframeMode` is off. -/
theorem wireframeMode_not_iff_flags :
    (Page.fresh.run [Event.loadModel "a.glb", Event.loadSuccess 0 duck,
      Event.toggleWireframe, Event.loadModel "b.glb",
      Event.loadSuccess 1 duck]).viewer.model.isSome = true ∧
    (Page.fresh.run [Event.loadModel "a.glb", Event.loadSuccess 0 duck,
      Event.toggleWireframe, Event.loadModel "b.glb",
      Event.loadSuccess 1 duck]).viewer.wireframeMode = true ∧
    (Page.fresh.run [Event.loadModel "a.glb", Event.loadSuccess 0 duck,
      Event.toggleWireframe, Event.loadModel "b.glb",
      Event.loadSuccess 1 duck]).viewer.modelMaterials.map (fun mat => mat.wireframe) =
      [false] ∧
    ¬ ((Page.fresh.run [Event.loadModel "a.glb", Event.loadSuccess 0 duck,
        Event.toggleWireframe, Event.loadModel "b.glb",
        Event.loadSuccess 1 duck]).viewer.wireframeMode = true ↔
      ∀ mat ∈ (Page.fresh.run [Event.loadModel "a.glb", Event.loadSuccess 0 duck,
        Event.toggleWireframe, Event.loadModel "b.glb",
        Event.loadSuccess 1 duck]).viewer.modelMaterials, mat.wireframe = true) ∧
    (Page.fresh.run [Event.loadModel "a.glb",
      Event.loadSuccess 0 emptyGroup]).viewer.model.isSome = true ∧
    (Page.fresh.run [Event.loadModel "a.glb",
      Event.loadSuccess 0 emptyGroup]).viewer.wireframeMode = false ∧
    (Page.fresh.run [Event.loadModel "a.glb",
      Event.loadSuccess 0 emptyGroup]).viewer.modelMaterials = [] ∧
    ¬ ((Page.fresh.run [Event.loadModel "a.glb",
        Event.loadSuccess 0 emptyGroup]).viewer.wireframeMode = true ↔
      ∀ mat ∈ (Page.fresh.run [Event.loadModel "a.glb",
        Event.loadSuccess 0 emptyGroup]).viewer.modelMaterials, mat.wireframe = true) := by
  refine ⟨by rfl, by rfl, by rfl, by decide, by rfl, by rfl, by rfl, by decide⟩

/-- After `loadModel` the model slot is empty, whatever the URL. -/
theorem loadModel_model_none (url : String) (p : Page) :
    (p.loadModel url).viewer.model = none := by
  have hc : p.clearModel.viewer.model = none := by
    cases hm : p.viewer.model <;> simp [Page.clearModel, hm]
  rw [loadModel_eq]
  split_ifs <;> exact hc

/-- Right after `toggleWireframe` every mesh material of the attached model has
its flag equal to `wireframeMode`. -/
theorem toggleWireframe_synced (v : BIMViewer) :
    ∀ mat ∈ v.toggleWireframe.modelMaterials,
      mat.wireframe = v.toggleWireframe.wireframeMode := by
  intro mat hmat
  cases hm : v.model with
  | none => simp [BIMViewer.toggleWireframe, BIMViewer.modelMaterials, hm] at hmat
  | some m =>
    simp only [BIMViewer.toggleWireframe, BIMViewer.modelMaterials, hm,
      Object3D.materials_traverse, List.mem_map] at hmat
    obtain ⟨mat0, _, rfl⟩ := hmat
    simp [BIMViewer.toggleWireframe, hm]

/-- Assigning the position of an object does not touch its materials. -/
theorem materials_setPosition (o : Object3D) (q : Vector3) :
    (o.setPosition q).materials = o.materials := by
  cases o
  simp [Object3D.setPosition, Object3D.materials]

/-- The success callback puts the delivered tree, with its materials as
delivered, in the model slot and leaves `wireframeMode` alone. -/
theorem onLoad_materials (r : Nat) (g : Object3D) (v : BIMViewer) :
    (BIMViewer.onLoad r g v).modelMaterials = g.materials ∧
    (BIMViewer.onLoad r g v).wireframeMode = v.wireframeMode := by
  simp [BIMViewer.onLoad, BIMViewer.centerModel, BIMViewer.modelMaterials,
    materials_setPosition]

/-- The method `toggleSection` keeps the agreement between the flags and
`wireframeMode`. -/
theorem toggleSection_keeps_synced (v : BIMViewer)
    (h : ∀ mat ∈ v.modelMaterials, mat.wireframe = v.wireframeMode) :
    ∀ mat ∈ v.toggleSection.modelMaterials,
      mat.wireframe = v.toggleSection.wireframeMode := by
  intro mat hmat
  cases hm : v.model with
  | none =>
    simp [BIMViewer.toggleSection, BIMViewer.modelMaterials, hm] at hmat
  | some m =>
    have h2 : ∀ mat ∈ m.root.materials, mat.wireframe = v.wireframeMode := by
      simpa [BIMViewer.modelMaterials, hm] using h
    cases hs : v.sectionMode with
    | false =>
      simp only [BIMViewer.toggleSection, BIMViewer.modelMaterials, hm, hs, Bool.not_false,
        if_true, Object3D.materials_traverse, List.mem_map] at hmat ⊢
      obtain ⟨mat0, hmat0, rfl⟩ := hmat
      exact h2 mat0 hmat0
    | true =>
      simp only [BIMViewer.toggleSection, BIMViewer.modelMaterials, hm, hs, Bool.not_true,
        Bool.false_eq_true, if_false, Object3D.materials_traverse, List.mem_map] at hmat ⊢
      obtain ⟨mat0, hmat0, rfl⟩ := hmat
      exact h2 mat0 hmat0

/-- Every event that satisfies `Event.deliversInMode` keeps the agreement
between the flags and `wireframeMode`. -/
theorem step_keeps_synced (p : Page) (e : Event) (he : e.deliversInMode p = true)
    (h : ∀ mat ∈ p.viewer.modelMaterials, mat.wireframe = p.viewer.wireframeMode) :
    ∀ mat ∈ (p.step e).viewer.modelMaterials,
      mat.wireframe = (p.step e).viewer.wireframeMode := by
  cases e with
  | loadModel url =>
    intro mat hmat
    simp [Page.step, BIMViewer.modelMaterials, loadModel_model_none] at hmat
  | loadSuccess r g =>
    by_cases hr : r ∈ p.pending
    · have hg : ∀ mat ∈ g.materials, mat.wireframe = p.viewer.wireframeMode := by
        simpa [Event.deliversInMode, hr] using he
      obtain ⟨h1, h2⟩ := onLoad_materials r g p.viewer
      intro mat hmat
      simp only [Page.step, hr, if_true, h1, h2] at hmat ⊢
      exact hg mat hmat
    · simpa [Page.step, hr] using h
  | loadFailure r err =>
    by_cases hr : r ∈ p.pending
    · simpa [Page.step, hr] using h
    · simpa [Page.step, hr] using h
  | toggleWireframe => exact toggleWireframe_synced p.viewer
  | toggleSection => exact toggleSection_keeps_synced p.viewer h

/-- A run in which every event satisfies `Event.deliversInMode` keeps the
agreement between the flags and `wireframeMode`. -/
theorem run_keeps_synced (post : List Event) :
    ∀ p : Page, p.completesInMode post = true →
      (∀ mat ∈ p.viewer.modelMaterials, mat.wireframe = p.viewer.wireframeMode) →
      ∀ mat ∈ (p.run post).viewer.modelMaterials,
        mat.wireframe = (p.run post).viewer.wireframeMode := by
  induction post with
  | nil => intro p _ h; exact h
  | cons e es ih =>
    intro p hpost h
    simp only [Page.completesInMode, Bool.and_eq_true] at hpost
    exact ih (p.step e) hpost.2 (step_keeps_synced p e hpost.1 h)

/-- C2, amended. Start from the fresh page, or from the state right after a call
of `toggleWireframe` in any reachable state, and let any events follow in which
each successful load completion delivers a model whose wireframe flags all
equal the `wireframeMode` in force when it arrives. Then every mesh material of
the attached model (if one is attached) has its wireframe flag equal to
`wireframeMode`. So there `wireframeMode` true implies that all flags are on,
and the converse holds when the model has a mesh. -/
theorem wireframe_flags_follow_mode (start : Page) (post : List Event)
    (hstart : start = Page.fresh ∨
      ∃ pre, start = (Page.fresh.run pre).step Event.toggleWireframe)
    (hpost : start.completesInMode post = true) :
    (∀ mat ∈ (start.run post).viewer.modelMaterials,
      mat.wireframe = (start.run post).viewer.wireframeMode) ∧
    ((start.run post).viewer.modelMaterials ≠ [] →
      ((start.run post).viewer.wireframeMode = true ↔
        ∀ mat ∈ (start.run post).viewer.modelMaterials, mat.wireframe = true)) := by
  have h0 : ∀ mat ∈ start.viewer.modelMaterials,
      mat.wireframe = start.viewer.wireframeMode := by
    rcases hstart with rfl | ⟨pre, rfl⟩
    · intro mat hmat
      simp [Page.fresh, BIMViewer.init, BIMViewer.modelMaterials] at hmat
    · exact toggleWireframe_synced (Page.fresh.run pre).viewer
  have hsync := run_keeps_synced post start hpost h0
  refine ⟨hsync, ?_⟩
  intro hne
  constructor
  · intro hmode mat hmat
    rw [hsync mat hmat, hmode]
  · intro hall
    cases hms : (start.run post).viewer.modelMaterials with
    | nil => exact absurd hms hne
    | cons mat rest =>
      have hmem : mat ∈ (start.run post).viewer.modelMaterials := by
        rw [hms]; exact List.mem_cons_self _ _
      rw [← hsync mat hmem]
      exact hall mat hmem

/-- Witness of `wireframe_flags_follow_mode`: after a first model has been loaded
and wireframe switched on, the section is toggled, wireframe is switched off,
and a second model is loaded. -/
theorem wireframe_flags_follow_mode_witness :
    ((Page.fresh.run [Event.loadModel "a.glb", Event.loadSuccess 0 duck]).step
        Event.toggleWireframe).completesInMode
      [Event.toggleSection, Event.toggleWireframe, Event.loadModel "b.glb",
        Event.loadSuccess 1 duck] = true ∧
    (∀ mat ∈ (((Page.fresh.run [Event.loadModel "a.glb", Event.loadSuccess 0 duck]).step
        Event.toggleWireframe).run
      [Event.toggleSection, Event.toggleWireframe, Event.loadModel "b.glb",
        Event.loadSuccess 1 duck]).viewer.modelMaterials,
      mat.wireframe =
        (((Page.fresh.run [Event.loadModel "a.glb", Event.loadSuccess 0 duck]).step
          Event.toggleWireframe).run
        [Event.toggleSection, Event.toggleWireframe, Event.loadModel "b.glb",
          Event.loadSuccess 1 duck]).viewer.wireframeMode) ∧
    ((((Page.fresh.run [Event.loadModel "a.glb", Event.loadSuccess 0 duck]).step
        Event.toggleWireframe).run
      [Event.toggleSection, Event.toggleWireframe, Event.loadModel "b.glb",
        Event.loadSuccess 1 duck]).viewer.modelMaterials ≠ [] →
      ((((Page.fresh.run [Event.loadModel "a.glb", Event.loadSuccess 0 duck]).step
          Event.toggleWireframe).run
        [Event.toggleSection, Event.toggleWireframe, Event.loadModel "b.glb",
          Event.loadSuccess 1 duck]).viewer.wireframeMode = true ↔
        ∀ mat ∈ (((Page.fresh.run [Event.loadModel "a.glb",
            Event.loadSuccess 0 duck]).step Event.toggleWireframe).run
          [Event.toggleSection, Event.toggleWireframe, Event.loadModel "b.glb",
            Event.loadSuccess 1 duck]).viewer.modelMaterials, mat.wireframe = true)) :=
  ⟨by decide,
    wireframe_flags_follow_mode
      ((Page.fresh.run [Event.loadModel "a.glb", Event.loadSuccess 0 duck]).step
        Event.toggleWireframe)
      [Event.toggleSection, Event.toggleWireframe, Event.loadModel "b.glb",
        Event.loadSuccess 1 duck]
      (Or.inr ⟨[Event.loadModel "a.glb", Event.loadSuccess 0 duck], rfl⟩) (by decide)⟩
